import Mathlib

/-!
Verification development for the `AssistantAgent` per-turn orchestration
(`_assistant_agent.py`): message data model, constructor validation,
tool-call execution with error containment, handoff detection, and the
turn state machine of `on_messages_stream`.
-/

set_option maxHeartbeats 1000000

/-- Token usage attached to an inference result (`RequestUsage`). -/
structure RequestUsage where
  prompt_tokens : Nat
  completion_tokens : Nat
  deriving DecidableEq

/-- A tool-call request produced by inference (`FunctionCall`):
id, raw argument string, tool name. -/
structure FunctionCall where
  id : String
  arguments : String
  name : String
  deriving DecidableEq

/-- Result of executing one tool call (`FunctionExecutionResult`):
content string and the id of the originating call. -/
structure FunctionExecutionResult where
  content : String
  call_id : String
  deriving DecidableEq

/-- An item of multi-modal content: text or an image (images abstracted
to an identifier). -/
inductive MMItem where
  | text (s : String)
  | image (data : Nat)
  deriving DecidableEq

/-- Content of a `UserMessage`: either a plain string or a list of
multi-modal items, mirroring `str | List[str | Image]`. -/
inductive UserContent where
  | ofString (s : String)
  | ofList (items : List MMItem)
  deriving DecidableEq

/-- Content of an inference result / `AssistantMessage`: plain text or a
list of tool-call requests. -/
inductive InferenceContent where
  | ofString (s : String)
  | ofCalls (calls : List FunctionCall)
  deriving DecidableEq

/-- A message held in the model context (`LLMMessage` sum:
`SystemMessage | UserMessage | AssistantMessage |
FunctionExecutionResultMessage`). -/
inductive LLMMessage where
  | system (content : String)
  | user (content : UserContent) (source : String)
  | assistant (content : InferenceContent) (source : String)
  | functionExecutionResults (content : List FunctionExecutionResult)
  deriving DecidableEq

/-- Result of one `model_client.create` call. -/
structure CreateResult where
  content : InferenceContent
  usage : RequestUsage
  deriving DecidableEq

/-- An abstract JSON value, the output type of `json.loads`.  The agent
code treats parsed arguments opaquely (handing them to `run_json`), so
the structure of JSON values is abstracted to atoms. -/
inductive JValue where
  | str (s : String)
  | num (n : Int)
  | bool (b : Bool)
  | null
  deriving DecidableEq

/-- Runtime interface of a registered tool (`Tool`): unique name,
`run_json` which may raise (modelled as `Except` with the exception
message), and `return_value_as_string`. -/
structure ToolRT where
  name : String
  run_json : JValue → Except String JValue
  return_value_as_string : JValue → String

/-- A handoff configuration (`HandoffBase`): target agent, templated
outgoing message, and the generated handoff tool name. -/
structure Handoff where
  target : String
  message : String
  name : String
  deriving DecidableEq

/-- Modelled from the spec: `HandoffBase.handoff_tool` (defined outside
`src/`, in `autogen_agentchat.base`) generates a tool named after the
handoff whose execution returns the handoff message. -/
def Handoff.handoff_tool (h : Handoff) : ToolRT where
  name := h.name
  run_json := fun _ => Except.ok (JValue.str h.message)
  return_value_as_string := fun v =>
    match v with
    | JValue.str s => s
    | JValue.num n => toString n
    | JValue.bool b => toString b
    | JValue.null => "null"

/-- The model client interface consumed by the agent: capability flags
and a deterministic `create` taking the message list and the names of
the tool specifications passed along. -/
structure ModelClient where
  vision : Bool
  function_calling : Bool
  create : List LLMMessage → List String → CreateResult

/-- A memory provider: `update_context` takes the context and returns
the (possibly mutated) context together with the retrieved results. -/
structure MemoryProvider where
  update_context : List LLMMessage → List LLMMessage × List String

/-- One piece of the `tool_call_summary_format` template: literal text
or one of the three named fields `tool_name`, `arguments`, `result`. -/
inductive TemplatePart where
  | lit (s : String)
  | tool_name
  | arguments
  | result
  deriving DecidableEq

/-- `str.format` applied to the summary template with the three fields. -/
def renderTemplate (fmt : List TemplatePart) (tool_name arguments result : String) :
    String :=
  String.join (fmt.map fun p =>
    match p with
    | TemplatePart.lit s => s
    | TemplatePart.tool_name => tool_name
    | TemplatePart.arguments => arguments
    | TemplatePart.result => result)

/-- The agent's configuration after a successful `__init__`. -/
structure AssistantAgent where
  name : String
  system_messages : List LLMMessage
  tools : List ToolRT
  handoff_tools : List ToolRT
  handoffs : List (String × Handoff)
  reflect_on_tool_use : Bool
  tool_call_summary_format : List TemplatePart

/-- `AssistantAgent.__init__`: performs the construction-time checks in
source order (function-calling support for tools, duplicate tool names,
function-calling support for handoffs, duplicate handoff tool names,
handoff/tool name collision) and either raises (`Except.error` with the
`ValueError` message) or produces the configured agent. -/
def AssistantAgent.init (name : String) (client : ModelClient)
    (tools : Option (List ToolRT)) (handoffs : Option (List Handoff))
    (system_message : Option String) (reflect_on_tool_use : Bool)
    (tool_call_summary_format : List TemplatePart) :
    Except String AssistantAgent :=
  if tools.isSome && !client.function_calling then
    Except.error "The model does not support function calling."
  else
    let tls := tools.getD []
    let tool_names := tls.map ToolRT.name
    if ¬ tool_names.Nodup then
      Except.error "Tool names must be unique"
    else if handoffs.isSome && !client.function_calling then
      Except.error "The model does not support function calling, which is needed for handoffs."
    else
      let hds := handoffs.getD []
      let handoff_tools := hds.map Handoff.handoff_tool
      let handoff_tool_names := handoff_tools.map ToolRT.name
      if ¬ handoff_tool_names.Nodup then
        Except.error "Handoff names must be unique"
      else if handoff_tool_names.any (fun n => tool_names.contains n) then
        Except.error "Handoff names must be unique from tool names."
      else
        Except.ok
          { name := name
            system_messages :=
              match system_message with
              | none => []
              | some s => [LLMMessage.system s]
            tools := tls
            handoff_tools := handoff_tools
            handoffs := hds.map (fun h => (h.name, h))
            reflect_on_tool_use := reflect_on_tool_use
            tool_call_summary_format := tool_call_summary_format }

/-- The incoming chat message sum (`TextMessage | MultiModalMessage |
HandoffMessage | ToolCallSummaryMessage`), each carrying content, a
source and optional usage metadata. -/
inductive ChatMessage where
  | textMessage (content : String) (source : String) (models_usage : Option RequestUsage)
  | multiModalMessage (content : List MMItem) (source : String) (models_usage : Option RequestUsage)
  | handoffMessage (content : String) (target : String) (source : String) (models_usage : Option RequestUsage)
  | toolCallSummaryMessage (content : String) (source : String) (models_usage : Option RequestUsage)
  deriving DecidableEq

/-- `msg.content`, injected into the `UserMessage` content type. -/
def ChatMessage.content : ChatMessage → UserContent
  | ChatMessage.textMessage c _ _ => UserContent.ofString c
  | ChatMessage.multiModalMessage c _ _ => UserContent.ofList c
  | ChatMessage.handoffMessage c _ _ _ => UserContent.ofString c
  | ChatMessage.toolCallSummaryMessage c _ _ => UserContent.ofString c

/-- `msg.source`. -/
def ChatMessage.source : ChatMessage → String
  | ChatMessage.textMessage _ s _ => s
  | ChatMessage.multiModalMessage _ s _ => s
  | ChatMessage.handoffMessage _ _ s _ => s
  | ChatMessage.toolCallSummaryMessage _ s _ => s

/-- `msg.models_usage`. -/
def ChatMessage.models_usage : ChatMessage → Option RequestUsage
  | ChatMessage.textMessage _ _ u => u
  | ChatMessage.multiModalMessage _ _ u => u
  | ChatMessage.handoffMessage _ _ _ u => u
  | ChatMessage.toolCallSummaryMessage _ _ u => u

/-- `isinstance(msg, MultiModalMessage)`. -/
def ChatMessage.isMultiModal : ChatMessage → Bool
  | ChatMessage.multiModalMessage _ _ _ => true
  | _ => false

/-- Message ingestion (the first loop of `on_messages_stream`): walk the
batch in order; on a multi-modal message with `vision` off, stop with
the `ValueError` (second component `false`), leaving the context as
mutated so far; otherwise append `UserMessage(content=msg.content,
source=msg.source)` and continue. -/
def ingest (vision : Bool) (ctx : List LLMMessage) :
    List ChatMessage → List LLMMessage × Bool
  | [] => (ctx, true)
  | msg :: rest =>
    if msg.isMultiModal && !vision then
      (ctx, false)
    else
      ingest vision (ctx ++ [LLMMessage.user msg.content msg.source]) rest

/-- Events yielded during a turn before the terminal `Response`. -/
inductive AgentEvent where
  | memoryQueryEvent (content : List String) (source : String)
  | toolCallRequestEvent (content : List FunctionCall) (source : String) (models_usage : Option RequestUsage)
  | toolCallExecutionEvent (content : List FunctionExecutionResult) (source : String)
  deriving DecidableEq

/-- The memory-augmentation loop: each provider's `update_context` runs
in registration order; when it returns a non-empty result list, a
`MemoryQueryEvent` is recorded and yielded. -/
def runMemory (name : String) :
    List MemoryProvider → List LLMMessage → List LLMMessage × List AgentEvent
  | [], ctx => (ctx, [])
  | p :: ps, ctx =>
    let r := p.update_context ctx
    let rest := runMemory name ps r.1
    if r.2.length > 0 then
      (rest.1, AgentEvent.memoryQueryEvent r.2 name :: rest.2)
    else
      (rest.1, rest.2)

/-- The body of the `try` block of `_execute_tool_call`: empty-registry
check, name resolution over `self._tools + self._handoff_tools`,
`json.loads` of the argument string (`jl`, supplied as the environment's
JSON decoder), the tool's `run_json`, and `return_value_as_string`.  Any
failure is the raised exception's message. -/
def execute_tool_call_core (registry : List ToolRT)
    (jl : String → Except String JValue) (call : FunctionCall) :
    Except String String :=
  if registry.isEmpty then
    Except.error "No tools are available."
  else
    match registry.find? (fun t => t.name == call.name) with
    | none => Except.error ("The tool " ++ call.name ++ " is not available.")
    | some tool =>
      match jl call.arguments with
      | Except.error e => Except.error e
      | Except.ok arguments =>
        match tool.run_json arguments with
        | Except.error e => Except.error e
        | Except.ok result => Except.ok (tool.return_value_as_string result)

/-- `_execute_tool_call`: the `except` clause converts any failure into
a `FunctionExecutionResult` whose content is `"Error: "` followed by the
exception message; the call id is carried in both branches. -/
def execute_tool_call (ag : AssistantAgent) (jl : String → Except String JValue)
    (call : FunctionCall) : FunctionExecutionResult :=
  match execute_tool_call_core (ag.tools ++ ag.handoff_tools) jl call with
  | Except.ok s => { content := s, call_id := call.id }
  | Except.error e => { content := "Error: " ++ e, call_id := call.id }

/-- The contract of `asyncio.gather` over the per-call executors:
results in request order.  The turn function uses this. -/
def executeAll (ag : AssistantAgent) (jl : String → Except String JValue)
    (requests : List FunctionCall) : List FunctionExecutionResult :=
  requests.map (execute_tool_call ag jl)

/-- One completion step of the concurrent fan-out: the task at index `j`
finishes and writes its result into slot `j` of the result buffer. -/
def gatherStep (tasks : List FunctionCall)
    (exec : FunctionCall → FunctionExecutionResult)
    (acc : List (Option FunctionExecutionResult)) (j : Nat) :
    List (Option FunctionExecutionResult) :=
  match tasks[j]? with
  | some t => acc.set j (some (exec t))
  | none => acc

/-- Operational model of `asyncio.gather`: the scheduler completes tasks
in an arbitrary `order`; each completion fills its own slot of a buffer
indexed by request position. -/
def asyncGather (tasks : List FunctionCall)
    (exec : FunctionCall → FunctionExecutionResult) (order : List Nat) :
    List (Option FunctionExecutionResult) :=
  order.foldl (gatherStep tasks exec) (List.replicate tasks.length none)

/-- `call.name in self._handoffs` collected over the request list in
encounter order (the handoff-detection loop). -/
def detectHandoffs (handoffs : List (String × Handoff))
    (calls : List FunctionCall) : List Handoff :=
  calls.filterMap (fun c => handoffs.lookup c.name)

/-- The terminal chat message of a `Response`. -/
inductive RespChatMessage where
  | textMessage (content : String) (source : String) (models_usage : Option RequestUsage)
  | handoffMessage (content : String) (target : String) (source : String)
  | toolCallSummaryMessage (content : String) (source : String)
  deriving DecidableEq

/-- The terminal `Response`: final chat message plus the inner events
accumulated during the turn. -/
structure Response where
  chat_message : RespChatMessage
  inner_messages : List AgentEvent
  deriving DecidableEq

/-- The exceptions `on_messages_stream` itself can raise: the vision
`ValueError` during ingestion, and the `assert isinstance(result.content,
str)` failure after the reflection inference. -/
inductive TurnError where
  | visionNotSupported
  | reflectionAssertionFailure
  deriving DecidableEq

/-- Everything observable from a completed turn: yielded events, the
terminal `Response`, the context after the turn, the warnings emitted
(each carrying the matched handoff names), and how many `create` calls
were made. -/
structure TurnOk where
  events : List AgentEvent
  response : Response
  ctx : List LLMMessage
  warnings : List (List String)
  inference_calls : Nat
  deriving DecidableEq

/-- Outcome of one turn: completion, or an exception raised with the
events yielded and the context mutations performed up to that point. -/
inductive TurnResult where
  | ok (o : TurnOk)
  | err (e : TurnError) (events : List AgentEvent) (ctx : List LLMMessage)
  deriving DecidableEq

/-- `on_messages_stream`: ingestion (with the vision check), memory
augmentation, first inference over the full context with the combined
tool+handoff specifications, then either the direct-text terminal, or
concurrent tool execution followed by handoff detection, and finally
the reflection or summary terminal. -/
def on_messages_stream (ag : AssistantAgent) (client : ModelClient)
    (memory : List MemoryProvider) (jl : String → Except String JValue)
    (ctx0 : List LLMMessage) (messages : List ChatMessage) : TurnResult :=
  let ing := ingest client.vision ctx0 messages
  if ing.2 then
    let mem := runMemory ag.name memory ing.1
    let result := client.create (ag.system_messages ++ mem.1)
      ((ag.tools ++ ag.handoff_tools).map ToolRT.name)
    let ctx3 := mem.1 ++ [LLMMessage.assistant result.content ag.name]
    match result.content with
    | InferenceContent.ofString s =>
      TurnResult.ok
        { events := mem.2
          response :=
            { chat_message := RespChatMessage.textMessage s ag.name (some result.usage)
              inner_messages := mem.2 }
          ctx := ctx3
          warnings := []
          inference_calls := 1 }
    | InferenceContent.ofCalls calls =>
      let reqEvent := AgentEvent.toolCallRequestEvent calls ag.name (some result.usage)
      let results := executeAll ag jl calls
      let execEvent := AgentEvent.toolCallExecutionEvent results ag.name
      let ctx4 := ctx3 ++ [LLMMessage.functionExecutionResults results]
      let events := mem.2 ++ [reqEvent, execEvent]
      match detectHandoffs ag.handoffs calls with
      | hd :: rest =>
        TurnResult.ok
          { events := events
            response :=
              { chat_message := RespChatMessage.handoffMessage hd.message hd.target ag.name
                inner_messages := events }
            ctx := ctx4
            warnings := if rest.isEmpty then [] else [(hd :: rest).map Handoff.name]
            inference_calls := 1 }
      | [] =>
        if ag.reflect_on_tool_use then
          let result2 := client.create (ag.system_messages ++ ctx4) []
          match result2.content with
          | InferenceContent.ofString s =>
            TurnResult.ok
              { events := events
                response :=
                  { chat_message := RespChatMessage.textMessage s ag.name (some result2.usage)
                    inner_messages := events }
                ctx := ctx4 ++ [LLMMessage.assistant (InferenceContent.ofString s) ag.name]
                warnings := []
                inference_calls := 2 }
          | InferenceContent.ofCalls _ =>
            TurnResult.err TurnError.reflectionAssertionFailure events ctx4
        else
          let summaries := List.zipWith
            (fun (c : FunctionCall) (r : FunctionExecutionResult) =>
              renderTemplate ag.tool_call_summary_format c.name c.arguments r.content)
            calls results
          TurnResult.ok
            { events := events
              response :=
                { chat_message :=
                    RespChatMessage.toolCallSummaryMessage
                      (String.intercalate "\n" summaries) ag.name
                  inner_messages := events }
              ctx := ctx4
              warnings := []
              inference_calls := 1 }
  else
    TurnResult.err TurnError.visionNotSupported [] ing.1

/-- The serialized agent state (`AssistantAgentState`), holding the
serialized model context. -/
structure AssistantAgentState where
  llm_context : List LLMMessage
  deriving DecidableEq

/-- Modelled from the spec: `ChatCompletionContext.save_state` (outside
`src/`) serializes the full ordered message sequence into an opaque,
structurally serializable blob; modelled as the sequence itself. -/
def contextSaveState (ctx : List LLMMessage) : List LLMMessage := ctx

/-- Modelled from the spec: `ChatCompletionContext.load_state` (outside
`src/`) reconstructs the message sequence message-for-message from the
blob. -/
def contextLoadState (blob : List LLMMessage) : List LLMMessage := blob

/-- `save_state`: wraps the serialized model context in
`AssistantAgentState` (`model_dump` is structural). -/
def save_state (ctx : List LLMMessage) : AssistantAgentState :=
  { llm_context := contextSaveState ctx }

/-- `load_state`: validates the state and loads the model context from
its `llm_context` field. -/
def load_state (st : AssistantAgentState) : List LLMMessage :=
  contextLoadState st.llm_context

theorem gatherStep_length (tasks : List FunctionCall)
    (exec : FunctionCall → FunctionExecutionResult)
    (acc : List (Option FunctionExecutionResult)) (j : Nat) :
    (gatherStep tasks exec acc j).length = acc.length := by
  unfold gatherStep
  cases h : tasks[j]? <;> simp

theorem gatherStep_getElem?_ne (tasks : List FunctionCall)
    (exec : FunctionCall → FunctionExecutionResult)
    (acc : List (Option FunctionExecutionResult)) (j i : Nat)
    (h : i ≠ j ∨ tasks.length ≤ i) :
    (gatherStep tasks exec acc j)[i]? = acc[i]? := by
  unfold gatherStep
  cases hj : tasks[j]? with
  | none => rfl
  | some t =>
    have hjlen : j < tasks.length := by
      by_contra hge
      rw [List.getElem?_eq_none (Nat.le_of_not_lt hge)] at hj
      exact Option.noConfusion hj
    have hne : i ≠ j := by
      rcases h with h | h
      · exact h
      · omega
    exact List.getElem?_set_ne (fun hh => hne hh.symm)

theorem gatherFold_getElem? (tasks : List FunctionCall)
    (exec : FunctionCall → FunctionExecutionResult) (order : List Nat) :
    ∀ (acc : List (Option FunctionExecutionResult)), acc.length = tasks.length →
    ∀ i : Nat,
      (order.foldl (gatherStep tasks exec) acc)[i]? =
        if i ∈ order ∧ i < tasks.length then
          (tasks[i]?).map (fun t => some (exec t))
        else acc[i]? := by
  induction order with
  | nil =>
    intro acc hlen i
    simp
  | cons j rest ih =>
    intro acc hlen i
    rw [List.foldl_cons, ih _ (by rw [gatherStep_length, hlen]) i]
    by_cases hmem : i ∈ rest
    · by_cases hi : i < tasks.length
      · simp [hmem, hi]
      · simp only [hmem, hi, and_false, if_false]
        exact gatherStep_getElem?_ne tasks exec acc j i (Or.inr (Nat.le_of_not_lt hi))
    · rw [if_neg (fun hc => hmem hc.1)]
      by_cases hij : i = j ∧ i < tasks.length
      · obtain ⟨heq, hi⟩ := hij
        rw [if_pos ⟨List.mem_cons.mpr (Or.inl heq), hi⟩]
        subst heq
        unfold gatherStep
        rw [List.getElem?_eq_getElem hi]
        rw [List.getElem?_set_self (by omega)]
        rfl
      · have hcond : ¬ (i ∈ j :: rest ∧ i < tasks.length) := by
          intro hc
          rcases List.mem_cons.mp hc.1 with he | he
          · exact hij ⟨he, hc.2⟩
          · exact hmem he
        rw [if_neg hcond]
        apply gatherStep_getElem?_ne
        by_cases he : i = j
        · right
          by_contra hlt
          exact hij ⟨he, Nat.lt_of_not_le hlt⟩
        · exact Or.inl he

theorem asyncGather_complete (tasks : List FunctionCall)
    (exec : FunctionCall → FunctionExecutionResult) (order : List Nat)
    (hcov : ∀ i, i < tasks.length → i ∈ order) :
    asyncGather tasks exec order = (tasks.map exec).map some := by
  apply List.ext_getElem?
  intro i
  unfold asyncGather
  rw [gatherFold_getElem? tasks exec order _ (by simp) i]
  by_cases hi : i < tasks.length
  · simp only [hi, hcov i hi, and_self, if_true, List.getElem?_map]
    cases h : tasks[i]? <;> simp
  · simp only [hi, and_false, if_false, List.getElem?_map]
    rw [List.getElem?_eq_none (Nat.le_of_not_lt hi),
      List.getElem?_eq_none (l := List.replicate tasks.length none)]
    · simp
    · simp [Nat.le_of_not_lt hi]

theorem execute_tool_call_call_id (ag : AssistantAgent)
    (jl : String → Except String JValue) (call : FunctionCall) :
    (execute_tool_call ag jl call).call_id = call.id := by
  unfold execute_tool_call
  cases execute_tool_call_core (ag.tools ++ ag.handoff_tools) jl call <;> rfl

/-- C1: for a turn issuing k tool-call requests, the concurrent
execution phase (modelled as slot-indexed completion in an arbitrary
order) produces exactly the in-order result list used by the turn; that
list has length k and the result at each position carries the call id of
the request at that position, for every completion order that completes
all tasks. -/
theorem toolResults_length_order_ids (ag : AssistantAgent)
    (jl : String → Except String JValue) (requests : List FunctionCall)
    (order : List Nat) (hcov : ∀ i, i < requests.length → i ∈ order) :
    asyncGather requests (execute_tool_call ag jl) order =
      (executeAll ag jl requests).map some
    ∧ (executeAll ag jl requests).length = requests.length
    ∧ ∀ i : Nat,
        ((executeAll ag jl requests)[i]?).map FunctionExecutionResult.call_id =
          (requests[i]?).map FunctionCall.id := by
  refine ⟨asyncGather_complete _ _ _ hcov, by simp [executeAll], ?_⟩
  intro i
  simp only [executeAll, List.getElem?_map]
  cases h : requests[i]? with
  | none => rfl
  | some c => simp [execute_tool_call_call_id]

/-- A concrete JSON decoder for witnesses: rejects the literal string
"bad", accepts anything else as a string atom. -/
def jlW : String → Except String JValue := fun s =>
  if s == "bad" then Except.error "Expecting value" else Except.ok (JValue.str s)

/-- A concrete clock tool for witnesses. -/
def toolClock : ToolRT where
  name := "get_time"
  run_json := fun _ => Except.ok (JValue.str "12:00")
  return_value_as_string := fun v =>
    match v with
    | JValue.str s => s
    | _ => ""

/-- A concrete tool whose execution always raises, for witnesses. -/
def toolBoom : ToolRT where
  name := "boom"
  run_json := fun _ => Except.error "boom failed"
  return_value_as_string := fun _ => ""

/-- A concrete agent configuration for witnesses. -/
def agW : AssistantAgent where
  name := "assistant"
  system_messages := []
  tools := [toolClock, toolBoom]
  handoff_tools := []
  handoffs := []
  reflect_on_tool_use := false
  tool_call_summary_format := [TemplatePart.result]

/-- A concrete request batch for witnesses: one resolvable call and one
call whose tool name is not registered. -/
def reqsW : List FunctionCall :=
  [{ id := "id1", arguments := "args", name := "get_time" },
   { id := "id2", arguments := "args", name := "missing" }]

/-- Witness for C1 at a two-request batch completed in reversed order. -/
theorem toolResults_length_order_ids_witness :
    (∀ i, i < reqsW.length → i ∈ ([1, 0] : List Nat)) ∧
    (asyncGather reqsW (execute_tool_call agW jlW) [1, 0] =
        (executeAll agW jlW reqsW).map some
      ∧ (executeAll agW jlW reqsW).length = reqsW.length
      ∧ ∀ i : Nat,
          ((executeAll agW jlW reqsW)[i]?).map FunctionExecutionResult.call_id =
            (reqsW[i]?).map FunctionCall.id) := by
  have hcov : ∀ i, i < reqsW.length → i ∈ ([1, 0] : List Nat) := by
    intro i hi
    simp only [reqsW, List.length_cons, List.length_nil] at hi
    interval_cases i <;> simp
  exact ⟨hcov, toolResults_length_order_ids agW jlW reqsW [1, 0] hcov⟩

theorem string_data_append (a b : String) : (a ++ b).data = a.data ++ b.data := by
  cases a
  cases b
  rfl

/-- Whether a turn ended with a terminal `Response` (no exception). -/
def TurnResult.isOk : TurnResult → Bool
  | TurnResult.ok _ => true
  | TurnResult.err _ _ _ => false

theorem execute_tool_call_core_error (ag : AssistantAgent)
    (jl : String → Except String JValue) (call : FunctionCall)
    (hfail :
      (ag.tools ++ ag.handoff_tools).find? (fun t => t.name == call.name) = none
      ∨ (∃ e, jl call.arguments = Except.error e)
      ∨ (∃ t a, (ag.tools ++ ag.handoff_tools).find? (fun t => t.name == call.name) = some t
          ∧ jl call.arguments = Except.ok a ∧ ∃ e, t.run_json a = Except.error e)) :
    ∃ e, execute_tool_call_core (ag.tools ++ ag.handoff_tools) jl call =
      Except.error e := by
  unfold execute_tool_call_core
  by_cases hemp : (ag.tools ++ ag.handoff_tools).isEmpty
  · rw [if_pos hemp]
    exact ⟨_, rfl⟩
  · rw [if_neg hemp]
    cases hft : (ag.tools ++ ag.handoff_tools).find? (fun t => t.name == call.name) with
    | none => exact ⟨_, rfl⟩
    | some tool =>
      cases hja : jl call.arguments with
      | error e => exact ⟨e, rfl⟩
      | ok a =>
        rcases hfail with hnone | ⟨e, he⟩ | ⟨t, a2, hft2, hok2, e, hrun⟩
        · rw [hft] at hnone
          exact Option.noConfusion hnone
        · rw [hja] at he
          exact Except.noConfusion he
        · rw [hft] at hft2
          injection hft2 with hteq
          subst hteq
          rw [hja] at hok2
          injection hok2 with haeq
          subst haeq
          simp only [hrun]
          exact ⟨e, rfl⟩

/-- C2: any per-call failure (name not resolving in the combined
tool+handoff registry, argument string failing to parse, or the tool's
own execution raising) is converted into a `FunctionExecutionResult`
whose content begins with "Error:" and which carries the call's id; the
executor is a total function (no exception escapes), results at other
batch positions depend only on their own request, and with reflection
disabled any turn that passes ingestion still completes with a terminal
`Response`. -/
theorem tool_failure_contained (ag : AssistantAgent)
    (jl : String → Except String JValue) (call : FunctionCall)
    (hfail :
      (ag.tools ++ ag.handoff_tools).find? (fun t => t.name == call.name) = none
      ∨ (∃ e, jl call.arguments = Except.error e)
      ∨ (∃ t a, (ag.tools ++ ag.handoff_tools).find? (fun t => t.name == call.name) = some t
          ∧ jl call.arguments = Except.ok a ∧ ∃ e, t.run_json a = Except.error e)) :
    (∃ m, (execute_tool_call ag jl call).content = "Error: " ++ m)
    ∧ "Error:".data <+: (execute_tool_call ag jl call).content.data
    ∧ (execute_tool_call ag jl call).call_id = call.id
    ∧ (∀ (requests : List FunctionCall) (i : Nat),
        (executeAll ag jl requests)[i]? =
          (requests[i]?).map (execute_tool_call ag jl))
    ∧ (∀ (client : ModelClient) (memory : List MemoryProvider)
        (ctx0 : List LLMMessage) (messages : List ChatMessage),
        ag.reflect_on_tool_use = false →
        (ingest client.vision ctx0 messages).2 = true →
        (on_messages_stream ag client memory jl ctx0 messages).isOk = true) := by
  obtain ⟨e, hcore⟩ := execute_tool_call_core_error ag jl call hfail
  have hcontent : (execute_tool_call ag jl call).content = "Error: " ++ e := by
    unfold execute_tool_call
    rw [hcore]
  refine ⟨⟨e, hcontent⟩, ?_, execute_tool_call_call_id ag jl call, ?_, ?_⟩
  · rw [hcontent, string_data_append]
    exact ⟨' ' :: e.data, rfl⟩
  · intro requests i
    simp only [executeAll, List.getElem?_map]
  · intro client memory ctx0 messages hrefl hing
    cases hc : (client.create
        (ag.system_messages ++
          (runMemory ag.name memory (ingest client.vision ctx0 messages).1).1)
        ((ag.tools ++ ag.handoff_tools).map ToolRT.name)).content with
    | ofString s =>
      simp only [on_messages_stream]
      rw [hing, if_pos rfl, hc]
      rfl
    | ofCalls calls =>
      cases hd : detectHandoffs ag.handoffs calls with
      | cons hdh hdt =>
        simp only [on_messages_stream]
        rw [hing, if_pos rfl, hc]
        simp [hd, TurnResult.isOk]
      | nil =>
        simp only [on_messages_stream]
        rw [hing, if_pos rfl, hc]
        simp [hd, hrefl, TurnResult.isOk]

/-- A concrete unresolvable call for the C2 witness. -/
def callMissing : FunctionCall :=
  { id := "id2", arguments := "args", name := "missing" }

/-- Witness for C2 at a call whose tool name is not registered. -/
theorem tool_failure_contained_witness :
    ((agW.tools ++ agW.handoff_tools).find? (fun t => t.name == callMissing.name) = none
      ∨ (∃ e, jlW callMissing.arguments = Except.error e)
      ∨ (∃ t a, (agW.tools ++ agW.handoff_tools).find? (fun t => t.name == callMissing.name) = some t
          ∧ jlW callMissing.arguments = Except.ok a ∧ ∃ e, t.run_json a = Except.error e))
    ∧ ((∃ m, (execute_tool_call agW jlW callMissing).content = "Error: " ++ m)
      ∧ "Error:".data <+: (execute_tool_call agW jlW callMissing).content.data
      ∧ (execute_tool_call agW jlW callMissing).call_id = callMissing.id
      ∧ (∀ (requests : List FunctionCall) (i : Nat),
          (executeAll agW jlW requests)[i]? =
            (requests[i]?).map (execute_tool_call agW jlW))
      ∧ (∀ (client : ModelClient) (memory : List MemoryProvider)
          (ctx0 : List LLMMessage) (messages : List ChatMessage),
          agW.reflect_on_tool_use = false →
          (ingest client.vision ctx0 messages).2 = true →
          (on_messages_stream agW client memory jlW ctx0 messages).isOk = true)) :=
  ⟨Or.inl rfl, tool_failure_contained agW jlW callMissing (Or.inl rfl)⟩

theorem runMemory_events (name : String) (provs : List MemoryProvider) :
    ∀ ctx, ∀ e ∈ (runMemory name provs ctx).2,
      ∃ c, e = AgentEvent.memoryQueryEvent c name := by
  induction provs with
  | nil =>
    intro ctx e he
    simp [runMemory] at he
  | cons p ps ih =>
    intro ctx e he
    by_cases h : (p.update_context ctx).2.length > 0
    · simp only [runMemory] at he
      rw [if_pos h] at he
      rcases List.mem_cons.mp he with he | he
      · exact ⟨_, he⟩
      · exact ih _ e he
    · simp only [runMemory] at he
      rw [if_neg h] at he
      exact ih _ e he

/-- C5: when the first inference result is plain text, the turn ends
with exactly one `Response` carrying that text unchanged, after a single
inference round, and the event sequence holds only memory-query events
(no tool-call request or tool-call execution events). -/
theorem text_terminal (ag : AssistantAgent) (client : ModelClient)
    (memory : List MemoryProvider) (jl : String → Except String JValue)
    (ctx0 : List LLMMessage) (messages : List ChatMessage)
    (s : String) (u : RequestUsage)
    (hing : (ingest client.vision ctx0 messages).2 = true)
    (hcreate : client.create
        (ag.system_messages ++
          (runMemory ag.name memory (ingest client.vision ctx0 messages).1).1)
        ((ag.tools ++ ag.handoff_tools).map ToolRT.name) =
      { content := InferenceContent.ofString s, usage := u }) :
    on_messages_stream ag client memory jl ctx0 messages =
      TurnResult.ok
        { events := (runMemory ag.name memory (ingest client.vision ctx0 messages).1).2
          response :=
            { chat_message := RespChatMessage.textMessage s ag.name (some u)
              inner_messages :=
                (runMemory ag.name memory (ingest client.vision ctx0 messages).1).2 }
          ctx := (runMemory ag.name memory (ingest client.vision ctx0 messages).1).1 ++
            [LLMMessage.assistant (InferenceContent.ofString s) ag.name]
          warnings := []
          inference_calls := 1 }
    ∧ ∀ e ∈ (runMemory ag.name memory (ingest client.vision ctx0 messages).1).2,
        ∃ c, e = AgentEvent.memoryQueryEvent c ag.name := by
  refine ⟨?_, runMemory_events ag.name memory _⟩
  simp only [on_messages_stream]
  rw [hing, if_pos rfl]
  simp only [hcreate]

/-- C3: when the request list contains registered handoff names, the
turn terminates with a handoff `Response` for the first match in
encounter order, after one inference round (reflection and summary are
skipped, whatever the reflection flag is), and a diagnostic carrying
all matched handoff names is emitted exactly when more than one
matched; detection is over the request list, so the conclusion holds
for every JSON decoder and tool behavior `jl`. -/
theorem handoff_terminal (ag : AssistantAgent) (client : ModelClient)
    (memory : List MemoryProvider) (jl : String → Except String JValue)
    (ctx0 : List LLMMessage) (messages : List ChatMessage)
    (calls : List FunctionCall) (u : RequestUsage) (hd : Handoff) (rest : List Handoff)
    (hing : (ingest client.vision ctx0 messages).2 = true)
    (hcreate : client.create
        (ag.system_messages ++
          (runMemory ag.name memory (ingest client.vision ctx0 messages).1).1)
        ((ag.tools ++ ag.handoff_tools).map ToolRT.name) =
      { content := InferenceContent.ofCalls calls, usage := u })
    (hdet : detectHandoffs ag.handoffs calls = hd :: rest) :
    on_messages_stream ag client memory jl ctx0 messages =
      TurnResult.ok
        { events := (runMemory ag.name memory (ingest client.vision ctx0 messages).1).2 ++
            [AgentEvent.toolCallRequestEvent calls ag.name (some u),
             AgentEvent.toolCallExecutionEvent (executeAll ag jl calls) ag.name]
          response :=
            { chat_message := RespChatMessage.handoffMessage hd.message hd.target ag.name
              inner_messages :=
                (runMemory ag.name memory (ingest client.vision ctx0 messages).1).2 ++
                  [AgentEvent.toolCallRequestEvent calls ag.name (some u),
                   AgentEvent.toolCallExecutionEvent (executeAll ag jl calls) ag.name] }
          ctx := (runMemory ag.name memory (ingest client.vision ctx0 messages).1).1 ++
            [LLMMessage.assistant (InferenceContent.ofCalls calls) ag.name] ++
            [LLMMessage.functionExecutionResults (executeAll ag jl calls)]
          warnings := if rest.isEmpty then [] else [(hd :: rest).map Handoff.name]
          inference_calls := 1 } := by
  simp only [on_messages_stream]
  rw [hing, if_pos rfl]
  simp only [hcreate]
  simp only [hdet]

/-- C6: with tool calls, no handoff match and reflection disabled, the
`Response` content is the newline join of the summary template applied
to each (request, result) pair in request order. -/
theorem summary_terminal (ag : AssistantAgent) (client : ModelClient)
    (memory : List MemoryProvider) (jl : String → Except String JValue)
    (ctx0 : List LLMMessage) (messages : List ChatMessage)
    (calls : List FunctionCall) (u : RequestUsage)
    (hing : (ingest client.vision ctx0 messages).2 = true)
    (hcreate : client.create
        (ag.system_messages ++
          (runMemory ag.name memory (ingest client.vision ctx0 messages).1).1)
        ((ag.tools ++ ag.handoff_tools).map ToolRT.name) =
      { content := InferenceContent.ofCalls calls, usage := u })
    (hdet : detectHandoffs ag.handoffs calls = [])
    (hrefl : ag.reflect_on_tool_use = false) :
    on_messages_stream ag client memory jl ctx0 messages =
      TurnResult.ok
        { events := (runMemory ag.name memory (ingest client.vision ctx0 messages).1).2 ++
            [AgentEvent.toolCallRequestEvent calls ag.name (some u),
             AgentEvent.toolCallExecutionEvent (executeAll ag jl calls) ag.name]
          response :=
            { chat_message :=
                RespChatMessage.toolCallSummaryMessage
                  (String.intercalate "\n"
                    (List.zipWith
                      (fun (c : FunctionCall) (r : FunctionExecutionResult) =>
                        renderTemplate ag.tool_call_summary_format c.name c.arguments
                          r.content)
                      calls (executeAll ag jl calls)))
                  ag.name
              inner_messages :=
                (runMemory ag.name memory (ingest client.vision ctx0 messages).1).2 ++
                  [AgentEvent.toolCallRequestEvent calls ag.name (some u),
                   AgentEvent.toolCallExecutionEvent (executeAll ag jl calls) ag.name] }
          ctx := (runMemory ag.name memory (ingest client.vision ctx0 messages).1).1 ++
            [LLMMessage.assistant (InferenceContent.ofCalls calls) ag.name] ++
            [LLMMessage.functionExecutionResults (executeAll ag jl calls)]
          warnings := []
          inference_calls := 1 } := by
  simp only [on_messages_stream]
  rw [hing, if_pos rfl]
  simp only [hcreate]
  simp only [hdet]
  rw [hrefl, if_neg Bool.false_ne_true]

/-- C9: with tool calls, no handoff and reflection enabled, the second
inference call is made over the augmented context with the tool
definitions omitted (the empty specification list); if its result is
text the turn ends with a text `Response` carrying it after two
inference rounds, while a non-text second result is an assertion
failure, not a recoverable outcome. -/
theorem reflection_terminal (ag : AssistantAgent) (client : ModelClient)
    (memory : List MemoryProvider) (jl : String → Except String JValue)
    (ctx0 : List LLMMessage) (messages : List ChatMessage)
    (calls : List FunctionCall) (u : RequestUsage)
    (hing : (ingest client.vision ctx0 messages).2 = true)
    (hcreate : client.create
        (ag.system_messages ++
          (runMemory ag.name memory (ingest client.vision ctx0 messages).1).1)
        ((ag.tools ++ ag.handoff_tools).map ToolRT.name) =
      { content := InferenceContent.ofCalls calls, usage := u })
    (hdet : detectHandoffs ag.handoffs calls = [])
    (hrefl : ag.reflect_on_tool_use = true) :
    (∀ (s : String) (u2 : RequestUsage),
      client.create
          (ag.system_messages ++
            ((runMemory ag.name memory (ingest client.vision ctx0 messages).1).1 ++
              [LLMMessage.assistant (InferenceContent.ofCalls calls) ag.name] ++
              [LLMMessage.functionExecutionResults (executeAll ag jl calls)])) [] =
        { content := InferenceContent.ofString s, usage := u2 } →
      on_messages_stream ag client memory jl ctx0 messages =
        TurnResult.ok
          { events := (runMemory ag.name memory (ingest client.vision ctx0 messages).1).2 ++
              [AgentEvent.toolCallRequestEvent calls ag.name (some u),
               AgentEvent.toolCallExecutionEvent (executeAll ag jl calls) ag.name]
            response :=
              { chat_message := RespChatMessage.textMessage s ag.name (some u2)
                inner_messages :=
                  (runMemory ag.name memory (ingest client.vision ctx0 messages).1).2 ++
                    [AgentEvent.toolCallRequestEvent calls ag.name (some u),
                     AgentEvent.toolCallExecutionEvent (executeAll ag jl calls) ag.name] }
            ctx := (runMemory ag.name memory (ingest client.vision ctx0 messages).1).1 ++
              [LLMMessage.assistant (InferenceContent.ofCalls calls) ag.name] ++
              [LLMMessage.functionExecutionResults (executeAll ag jl calls)] ++
              [LLMMessage.assistant (InferenceContent.ofString s) ag.name]
            warnings := []
            inference_calls := 2 })
    ∧ (∀ (calls2 : List FunctionCall) (u2 : RequestUsage),
      client.create
          (ag.system_messages ++
            ((runMemory ag.name memory (ingest client.vision ctx0 messages).1).1 ++
              [LLMMessage.assistant (InferenceContent.ofCalls calls) ag.name] ++
              [LLMMessage.functionExecutionResults (executeAll ag jl calls)])) [] =
        { content := InferenceContent.ofCalls calls2, usage := u2 } →
      on_messages_stream ag client memory jl ctx0 messages =
        TurnResult.err TurnError.reflectionAssertionFailure
          ((runMemory ag.name memory (ingest client.vision ctx0 messages).1).2 ++
            [AgentEvent.toolCallRequestEvent calls ag.name (some u),
             AgentEvent.toolCallExecutionEvent (executeAll ag jl calls) ag.name])
          ((runMemory ag.name memory (ingest client.vision ctx0 messages).1).1 ++
            [LLMMessage.assistant (InferenceContent.ofCalls calls) ag.name] ++
            [LLMMessage.functionExecutionResults (executeAll ag jl calls)])) := by
  constructor
  · intro s u2 h2
    simp only [on_messages_stream]
    rw [hing, if_pos rfl]
    simp only [hcreate]
    simp only [hdet]
    rw [hrefl, if_pos rfl]
    simp only [h2]
  · intro calls2 u2 h2
    simp only [on_messages_stream]
    rw [hing, if_pos rfl]
    simp only [hcreate]
    simp only [hdet]
    rw [hrefl, if_pos rfl]
    simp only [h2]

/-- C10: every entry appended to the model context during ingestion is
a `UserMessage` built from only the original message's content and
source; the original variant and its usage metadata are not preserved. -/
theorem ingestion_user_entries (v : Bool) :
    ∀ (msgs : List ChatMessage) (ctx : List LLMMessage),
      (ingest v ctx msgs).2 = true →
      (ingest v ctx msgs).1 =
        ctx ++ msgs.map (fun m => LLMMessage.user m.content m.source) := by
  intro msgs
  induction msgs with
  | nil =>
    intro ctx _
    simp [ingest]
  | cons m rest ih =>
    intro ctx h
    by_cases hmm : (m.isMultiModal && !v) = true
    · rw [ingest, if_pos hmm] at h
      simp at h
    · rw [ingest, if_neg hmm] at h ⊢
      rw [ih _ h]
      simp

/-- Witness for C10 at a handoff-variant message carrying usage
metadata: the stored entry is the user variant from content and source
only. -/
theorem ingestion_user_entries_witness :
    (ingest true []
        [ChatMessage.handoffMessage "c" "t" "s"
          (some { prompt_tokens := 1, completion_tokens := 2 })]).2 = true
    ∧ (ingest true []
        [ChatMessage.handoffMessage "c" "t" "s"
          (some { prompt_tokens := 1, completion_tokens := 2 })]).1 =
      [LLMMessage.user (UserContent.ofString "c") "s"] :=
  ⟨rfl,
    ingestion_user_entries true
      [ChatMessage.handoffMessage "c" "t" "s"
        (some { prompt_tokens := 1, completion_tokens := 2 })] [] rfl⟩

theorem ingest_stop (mmsg : ChatMessage) (hmm : mmsg.isMultiModal = true)
    (rest : List ChatMessage) :
    ∀ (pre : List ChatMessage) (ctx : List LLMMessage),
      (∀ m ∈ pre, m.isMultiModal = false) →
      ingest false ctx (pre ++ mmsg :: rest) =
        (ctx ++ pre.map (fun m => LLMMessage.user m.content m.source), false) := by
  intro pre
  induction pre with
  | nil =>
    intro ctx _
    simp [ingest, hmm]
  | cons m pr ih =>
    intro ctx hpre
    have hm : m.isMultiModal = false := hpre m (List.mem_cons_self m pr)
    rw [List.cons_append, ingest, if_neg (by simp [hm])]
    rw [ih _ (fun x hx => hpre x (List.mem_cons_of_mem m hx))]
    simp

/-- C4 (amended): a multi-modal message with vision unsupported makes
the turn fail during ingestion — before memory augmentation and before
any inference (no events, no dependence on the client's `create` or the
providers) — but the batch messages preceding the multi-modal one have
already been appended to the context store; the store equals its
pre-turn state only when the multi-modal message is first. -/
theorem vision_error_at_ingestion (ag : AssistantAgent) (client : ModelClient)
    (memory : List MemoryProvider) (jl : String → Except String JValue)
    (ctx0 : List LLMMessage) (pre : List ChatMessage) (mmsg : ChatMessage)
    (rest : List ChatMessage)
    (hvis : client.vision = false)
    (hmm : mmsg.isMultiModal = true)
    (hpre : ∀ m ∈ pre, m.isMultiModal = false) :
    on_messages_stream ag client memory jl ctx0 (pre ++ mmsg :: rest) =
      TurnResult.err TurnError.visionNotSupported []
        (ctx0 ++ pre.map (fun m => LLMMessage.user m.content m.source)) := by
  have hstop : ingest client.vision ctx0 (pre ++ mmsg :: rest) =
      (ctx0 ++ pre.map (fun m => LLMMessage.user m.content m.source), false) := by
    rw [hvis]
    exact ingest_stop mmsg hmm rest pre ctx0 hpre
  simp only [on_messages_stream, hstop]
  rfl

/-- A vision-less model client for the C4 counterexample and witness. -/
def clientNoVision : ModelClient where
  vision := false
  function_calling := true
  create := fun _ _ =>
    { content := InferenceContent.ofString "ok"
      usage := { prompt_tokens := 0, completion_tokens := 0 } }

/-- C4 counterexample: with the multi-modal message second in the
batch, the turn fails with the capability error, yet the context store
is not left as it was before the turn began — the first batch message
has already been appended. -/
theorem vision_error_mutates_store :
    on_messages_stream agW clientNoVision [] jlW []
        [ChatMessage.textMessage "hi" "user" none,
         ChatMessage.multiModalMessage [MMItem.text "pic"] "user" none] =
      TurnResult.err TurnError.visionNotSupported []
        [LLMMessage.user (UserContent.ofString "hi") "user"]
    ∧ ([LLMMessage.user (UserContent.ofString "hi") "user"] : List LLMMessage) ≠ [] := by
  constructor
  · rfl
  · simp

/-- Witness for the amended C4 at a batch with one text message before
the multi-modal one. -/
theorem vision_error_at_ingestion_witness :
    (clientNoVision.vision = false
      ∧ (ChatMessage.multiModalMessage [MMItem.text "pic"] "user" none).isMultiModal = true
      ∧ ∀ m ∈ [ChatMessage.textMessage "hi" "user" none], m.isMultiModal = false)
    ∧ on_messages_stream agW clientNoVision [] jlW []
        ([ChatMessage.textMessage "hi" "user" none] ++
          ChatMessage.multiModalMessage [MMItem.text "pic"] "user" none :: []) =
      TurnResult.err TurnError.visionNotSupported []
        [LLMMessage.user (UserContent.ofString "hi") "user"] :=
  ⟨⟨rfl, rfl, by decide⟩,
    vision_error_at_ingestion agW clientNoVision [] jlW []
      [ChatMessage.textMessage "hi" "user" none]
      (ChatMessage.multiModalMessage [MMItem.text "pic"] "user" none) []
      rfl rfl (by decide)⟩

/-- C7: construction with duplicate tool names, duplicate handoff tool
names, or a handoff tool name colliding with a tool name always fails
with a configuration `ValueError` — no agent value is produced. -/
theorem construction_rejects_collisions (name : String) (client : ModelClient)
    (tools : Option (List ToolRT)) (handoffs : Option (List Handoff))
    (system_message : Option String) (reflect_on_tool_use : Bool)
    (fmt : List TemplatePart)
    (h : ¬ ((tools.getD []).map ToolRT.name).Nodup
      ∨ ¬ (((handoffs.getD []).map Handoff.handoff_tool).map ToolRT.name).Nodup
      ∨ (((handoffs.getD []).map Handoff.handoff_tool).map ToolRT.name).any
          (fun n => ((tools.getD []).map ToolRT.name).contains n) = true) :
    ∃ e, AssistantAgent.init name client tools handoffs system_message
      reflect_on_tool_use fmt = Except.error e := by
  simp only [AssistantAgent.init]
  by_cases h1 : (tools.isSome && !client.function_calling) = true
  · rw [if_pos h1]
    exact ⟨_, rfl⟩
  · rw [if_neg h1]
    by_cases h2 : ¬ ((tools.getD []).map ToolRT.name).Nodup
    · rw [if_pos h2]
      exact ⟨_, rfl⟩
    · rw [if_neg h2]
      by_cases h3 : (handoffs.isSome && !client.function_calling) = true
      · rw [if_pos h3]
        exact ⟨_, rfl⟩
      · rw [if_neg h3]
        by_cases h4 : ¬ (((handoffs.getD []).map Handoff.handoff_tool).map ToolRT.name).Nodup
        · rw [if_pos h4]
          exact ⟨_, rfl⟩
        · rw [if_neg h4]
          by_cases h5 : (((handoffs.getD []).map Handoff.handoff_tool).map ToolRT.name).any
              (fun n => ((tools.getD []).map ToolRT.name).contains n) = true
          · rw [if_pos h5]
            exact ⟨_, rfl⟩
          · rcases h with h | h | h
            · exact absurd h h2
            · exact absurd h h4
            · exact absurd h h5

/-- Witness for C7 at a duplicate tool name. -/
theorem construction_rejects_collisions_witness :
    (¬ (((some [toolClock, toolClock] : Option (List ToolRT)).getD []).map ToolRT.name).Nodup
      ∨ ¬ ((((none : Option (List Handoff)).getD []).map Handoff.handoff_tool).map ToolRT.name).Nodup
      ∨ ((((none : Option (List Handoff)).getD []).map Handoff.handoff_tool).map ToolRT.name).any
          (fun n => (((some [toolClock, toolClock] : Option (List ToolRT)).getD []).map ToolRT.name).contains n) = true)
    ∧ ∃ e, AssistantAgent.init "assistant" clientNoVision
        (some [toolClock, toolClock]) none none false [TemplatePart.result] =
      Except.error e :=
  ⟨Or.inl (by simp [toolClock]),
    construction_rejects_collisions "assistant" clientNoVision
      (some [toolClock, toolClock]) none none false [TemplatePart.result]
      (Or.inl (by simp [toolClock]))⟩

/-- C8: saving the context and loading the blob into a fresh agent
reproduces the context message-for-message (spec-modelled context
serialization: the blob is structural over the message sequence). -/
theorem save_load_roundtrip (ctx : List LLMMessage) :
    load_state (save_state ctx) = ctx := rfl

/-- A concrete one-message batch for witnesses. -/
def msgQ : ChatMessage := ChatMessage.textMessage "q" "user" none

/-- A client whose inference always returns the text "Paris". -/
def clientText : ModelClient where
  vision := true
  function_calling := true
  create := fun _ _ =>
    { content := InferenceContent.ofString "Paris"
      usage := { prompt_tokens := 1, completion_tokens := 2 } }

/-- Witness for C5: a text inference result yields the single text
`Response` "Paris" with no tool-call events. -/
theorem text_terminal_witness :
    ((ingest clientText.vision [] [msgQ]).2 = true
      ∧ clientText.create
          (agW.system_messages ++
            (runMemory agW.name [] (ingest clientText.vision [] [msgQ]).1).1)
          ((agW.tools ++ agW.handoff_tools).map ToolRT.name) =
        { content := InferenceContent.ofString "Paris"
          usage := { prompt_tokens := 1, completion_tokens := 2 } })
    ∧ (on_messages_stream agW clientText [] jlW [] [msgQ] =
        TurnResult.ok
          { events := []
            response :=
              { chat_message := RespChatMessage.textMessage "Paris" "assistant"
                  (some { prompt_tokens := 1, completion_tokens := 2 })
                inner_messages := [] }
            ctx := [LLMMessage.user (UserContent.ofString "q") "user",
                    LLMMessage.assistant (InferenceContent.ofString "Paris") "assistant"]
            warnings := []
            inference_calls := 1 }
      ∧ ∀ e ∈ ([] : List AgentEvent), ∃ c, e = AgentEvent.memoryQueryEvent c "assistant") :=
  ⟨⟨rfl, rfl⟩,
    text_terminal agW clientText [] jlW [] [msgQ] "Paris"
      { prompt_tokens := 1, completion_tokens := 2 } rfl rfl⟩

/-- A concrete resolvable clock call for witnesses. -/
def callTime : FunctionCall := { id := "id1", arguments := "args", name := "get_time" }

/-- A client whose inference always requests the clock tool. -/
def clientCalls : ModelClient where
  vision := true
  function_calling := true
  create := fun _ _ =>
    { content := InferenceContent.ofCalls [callTime]
      usage := { prompt_tokens := 3, completion_tokens := 4 } }

/-- Witness for C6, scenario B: one `get_time` call returning "12:00"
with template `result` gives Response content exactly "12:00". -/
theorem summary_terminal_witness :
    ((ingest clientCalls.vision [] [msgQ]).2 = true
      ∧ clientCalls.create
          (agW.system_messages ++
            (runMemory agW.name [] (ingest clientCalls.vision [] [msgQ]).1).1)
          ((agW.tools ++ agW.handoff_tools).map ToolRT.name) =
        { content := InferenceContent.ofCalls [callTime]
          usage := { prompt_tokens := 3, completion_tokens := 4 } }
      ∧ detectHandoffs agW.handoffs [callTime] = []
      ∧ agW.reflect_on_tool_use = false)
    ∧ on_messages_stream agW clientCalls [] jlW [] [msgQ] =
        TurnResult.ok
          { events := [AgentEvent.toolCallRequestEvent [callTime] "assistant"
                (some { prompt_tokens := 3, completion_tokens := 4 }),
              AgentEvent.toolCallExecutionEvent
                [{ content := "12:00", call_id := "id1" }] "assistant"]
            response :=
              { chat_message := RespChatMessage.toolCallSummaryMessage "12:00" "assistant"
                inner_messages := [AgentEvent.toolCallRequestEvent [callTime] "assistant"
                    (some { prompt_tokens := 3, completion_tokens := 4 }),
                  AgentEvent.toolCallExecutionEvent
                    [{ content := "12:00", call_id := "id1" }] "assistant"] }
            ctx := [LLMMessage.user (UserContent.ofString "q") "user",
                    LLMMessage.assistant (InferenceContent.ofCalls [callTime]) "assistant",
                    LLMMessage.functionExecutionResults
                      [{ content := "12:00", call_id := "id1" }]]
            warnings := []
            inference_calls := 1 } :=
  ⟨⟨rfl, rfl, rfl, rfl⟩,
    summary_terminal agW clientCalls [] jlW [] [msgQ] [callTime]
      { prompt_tokens := 3, completion_tokens := 4 } rfl rfl rfl rfl⟩

/-- Concrete handoff configurations targeting agentA and agentB. -/
def handoffA : Handoff :=
  { target := "agentA", message := "moving to agentA", name := "transfer_to_agentA" }

/-- Second handoff configuration for the multiple-handoff witness. -/
def handoffB : Handoff :=
  { target := "agentB", message := "moving to agentB", name := "transfer_to_agentB" }

/-- An agent configured with the two handoffs. -/
def agH : AssistantAgent where
  name := "assistant"
  system_messages := []
  tools := []
  handoff_tools := [handoffA.handoff_tool, handoffB.handoff_tool]
  handoffs := [("transfer_to_agentA", handoffA), ("transfer_to_agentB", handoffB)]
  reflect_on_tool_use := false
  tool_call_summary_format := [TemplatePart.result]

/-- A request for the first handoff. -/
def callHA : FunctionCall :=
  { id := "h1", arguments := "args", name := "transfer_to_agentA" }

/-- A request for the second handoff. -/
def callHB : FunctionCall :=
  { id := "h2", arguments := "args", name := "transfer_to_agentB" }

/-- A client requesting both handoffs, agentA first. -/
def clientHandoffs : ModelClient where
  vision := true
  function_calling := true
  create := fun _ _ =>
    { content := InferenceContent.ofCalls [callHA, callHB]
      usage := { prompt_tokens := 3, completion_tokens := 4 } }

/-- Witness for C3, scenario C: handoffs to agentA and agentB in that
order yield a handoff Response targeting agentA only, with a diagnostic
naming both. -/
theorem handoff_terminal_witness :
    ((ingest clientHandoffs.vision [] [msgQ]).2 = true
      ∧ clientHandoffs.create
          (agH.system_messages ++
            (runMemory agH.name [] (ingest clientHandoffs.vision [] [msgQ]).1).1)
          ((agH.tools ++ agH.handoff_tools).map ToolRT.name) =
        { content := InferenceContent.ofCalls [callHA, callHB]
          usage := { prompt_tokens := 3, completion_tokens := 4 } }
      ∧ detectHandoffs agH.handoffs [callHA, callHB] = [handoffA, handoffB])
    ∧ on_messages_stream agH clientHandoffs [] jlW [] [msgQ] =
        TurnResult.ok
          { events := [AgentEvent.toolCallRequestEvent [callHA, callHB] "assistant"
                (some { prompt_tokens := 3, completion_tokens := 4 }),
              AgentEvent.toolCallExecutionEvent
                [{ content := "moving to agentA", call_id := "h1" },
                 { content := "moving to agentB", call_id := "h2" }] "assistant"]
            response :=
              { chat_message :=
                  RespChatMessage.handoffMessage "moving to agentA" "agentA" "assistant"
                inner_messages := [AgentEvent.toolCallRequestEvent [callHA, callHB] "assistant"
                    (some { prompt_tokens := 3, completion_tokens := 4 }),
                  AgentEvent.toolCallExecutionEvent
                    [{ content := "moving to agentA", call_id := "h1" },
                     { content := "moving to agentB", call_id := "h2" }] "assistant"] }
            ctx := [LLMMessage.user (UserContent.ofString "q") "user",
                    LLMMessage.assistant
                      (InferenceContent.ofCalls [callHA, callHB]) "assistant",
                    LLMMessage.functionExecutionResults
                      [{ content := "moving to agentA", call_id := "h1" },
                       { content := "moving to agentB", call_id := "h2" }]]
            warnings := [["transfer_to_agentA", "transfer_to_agentB"]]
            inference_calls := 1 } :=
  ⟨⟨rfl, rfl, rfl⟩,
    handoff_terminal agH clientHandoffs [] jlW [] [msgQ] [callHA, callHB]
      { prompt_tokens := 3, completion_tokens := 4 } handoffA [handoffB] rfl rfl rfl⟩

/-- An agent configured with reflection enabled. -/
def agR : AssistantAgent where
  name := "assistant"
  system_messages := []
  tools := [toolClock, toolBoom]
  handoff_tools := []
  handoffs := []
  reflect_on_tool_use := true
  tool_call_summary_format := [TemplatePart.result]

/-- A client returning tool calls when tool specifications are passed
and the text "final answer" when they are omitted. -/
def clientReflect : ModelClient where
  vision := true
  function_calling := true
  create := fun _ specs =>
    if specs.isEmpty then
      { content := InferenceContent.ofString "final answer"
        usage := { prompt_tokens := 5, completion_tokens := 6 } }
    else
      { content := InferenceContent.ofCalls [callTime]
        usage := { prompt_tokens := 3, completion_tokens := 4 } }

/-- Witness for C9: tool calls, no handoff, reflection enabled; the
second inference (no tool specifications) returns text and the turn
ends with that text after two inference rounds. -/
theorem reflection_terminal_witness :
    ((ingest clientReflect.vision [] [msgQ]).2 = true
      ∧ clientReflect.create
          (agR.system_messages ++
            (runMemory agR.name [] (ingest clientReflect.vision [] [msgQ]).1).1)
          ((agR.tools ++ agR.handoff_tools).map ToolRT.name) =
        { content := InferenceContent.ofCalls [callTime]
          usage := { prompt_tokens := 3, completion_tokens := 4 } }
      ∧ detectHandoffs agR.handoffs [callTime] = []
      ∧ agR.reflect_on_tool_use = true)
    ∧ on_messages_stream agR clientReflect [] jlW [] [msgQ] =
        TurnResult.ok
          { events := [AgentEvent.toolCallRequestEvent [callTime] "assistant"
                (some { prompt_tokens := 3, completion_tokens := 4 }),
              AgentEvent.toolCallExecutionEvent
                [{ content := "12:00", call_id := "id1" }] "assistant"]
            response :=
              { chat_message := RespChatMessage.textMessage "final answer" "assistant"
                  (some { prompt_tokens := 5, completion_tokens := 6 })
                inner_messages := [AgentEvent.toolCallRequestEvent [callTime] "assistant"
                    (some { prompt_tokens := 3, completion_tokens := 4 }),
                  AgentEvent.toolCallExecutionEvent
                    [{ content := "12:00", call_id := "id1" }] "assistant"] }
            ctx := [LLMMessage.user (UserContent.ofString "q") "user",
                    LLMMessage.assistant (InferenceContent.ofCalls [callTime]) "assistant",
                    LLMMessage.functionExecutionResults
                      [{ content := "12:00", call_id := "id1" }],
                    LLMMessage.assistant
                      (InferenceContent.ofString "final answer") "assistant"]
            warnings := []
            inference_calls := 2 } :=
  ⟨⟨rfl, rfl, rfl, rfl⟩,
    (reflection_terminal agR clientReflect [] jlW [] [msgQ] [callTime]
      { prompt_tokens := 3, completion_tokens := 4 } rfl rfl rfl rfl).1
      "final answer" { prompt_tokens := 5, completion_tokens := 6 } rfl⟩
